import Mathlib

/-!
Verification of the `udp_acceptable` connected-UDP listener.

Shallow embedding of the Rust sources:
  `src/recv.rs`        — `FourTuple`, `recv_from_to` and the sockaddr decoding helpers;
  `src/early_pkt/map.rs`     — `EarlyPktMap`;
  `src/early_pkt/channel.rs` — `ListenerChan` / `ConnChan` operations on the map;
  `src/listener.rs`    — `IpFilterConfig`, `IpFilter`, `UdpListener::accept_raw`,
                         `accept`, `accept_owned`;
  `src/conn.rs`        — `UdpConn::recv`.

Byte buffers are `List Nat` (each element one byte), addresses carry their
host-order numeric values, and IPv6 addresses are 16-byte arrays.  The
bounded mailbox behind `futures::channel::mpsc::channel(1)` is external
library code and is modelled from the spec (bounded FIFO of capacity 1 with a
non-blocking try-send).  Syscall effects (`recvmsg`, socket creation) are
represented by their visible results.
-/

/-- Host-order IPv4 address value (`std::net::Ipv4Addr` seen as the `u32`
produced by `Ipv4Addr::from`). -/
structure Ipv4Addr where
  bits : Nat
deriving DecidableEq

/-- IPv6 address as its 16-byte array (`std::net::Ipv6Addr`); never swapped. -/
structure Ipv6Addr where
  octets : List Nat
deriving DecidableEq

/-- `std::net::IpAddr`. -/
inductive IpAddr where
  | V4 (a : Ipv4Addr)
  | V6 (a : Ipv6Addr)
deriving DecidableEq

/-- `std::net::SocketAddr` as an (ip, port) pair, both host order. -/
structure SocketAddr where
  ip : IpAddr
  port : Nat
deriving DecidableEq

/-- `FourTuple` from `src/recv.rs` lines 12-16. -/
structure FourTuple where
  local_addr : SocketAddr
  remote_addr : SocketAddr
deriving DecidableEq

/-- `IpFilterConfig` from `src/listener.rs` lines 160-163; the `HashSet` of
addresses is embedded as a list, membership up to `DecidableEq`. -/
inductive IpFilterConfig where
  | V4 (filter : Option (List Ipv4Addr))
  | V6 (filter : Option (List Ipv6Addr))

/-- `IpFilter` from `src/listener.rs` lines 179-183. -/
inductive IpFilter where
  | V4 (filter : List Ipv4Addr)
  | V6 (filter : List Ipv6Addr)
  | AlwaysPass
deriving DecidableEq

/-- `IpFilterConfig::build` from `src/listener.rs` lines 164-177. -/
def IpFilterConfig.build : IpFilterConfig → IpFilter
  | .V4 (some filter) => .V4 filter
  | .V4 none => .AlwaysPass
  | .V6 (some filter) => .V6 filter
  | .V6 none => .AlwaysPass

/-- `IpFilter::pass` from `src/listener.rs` lines 184-198. -/
def IpFilter.pass (f : IpFilter) (addr : IpAddr) : Bool :=
  match f with
  | .V4 filter =>
    match addr with
    | .V4 a => decide (a ∈ filter)
    | .V6 _ => false
  | .V6 filter =>
    match addr with
    | .V4 _ => false
    | .V6 a => decide (a ∈ filter)
  | .AlwaysPass => true

/-- Modelled from the spec: the mailbox behind `futures::channel::mpsc::channel(1)`
(external library code), a bounded FIFO of byte buffers with capacity 1; the
receiver side is live until the `ConnChan` holding it is dropped. -/
structure Mailbox where
  queue : List (List Nat)
  receiverLive : Bool
deriving DecidableEq

/-- Result of `mpsc::Sender::try_send`, carrying the buffer back on failure
(`TrySendError::into_inner`). -/
inductive TrySendRes where
  | ok
  | full (buf : List Nat)
  | disconnected (buf : List Nat)
deriving DecidableEq

/-- Modelled from the spec: non-blocking `try_send` on the bounded-1 mailbox.
Disconnected when the receiver is gone, `full` when the single slot is
occupied, otherwise the buffer is enqueued. -/
def Mailbox.trySend (mb : Mailbox) (buf : List Nat) : Mailbox × TrySendRes :=
  if mb.receiverLive = false then (mb, .disconnected buf)
  else if 1 ≤ mb.queue.length then (mb, .full buf)
  else ({ mb with queue := mb.queue ++ [buf] }, .ok)

/-- `EarlyPktMap` from `src/early_pkt/map.rs`: the `HashMap<FourTuple, Sender>`
embedded as an association list from 4-tuples to mailboxes. -/
abbrev EarlyPktMap := List (FourTuple × Mailbox)

/-- `HashMap::new` (`EarlyPktMap::new`). -/
def EarlyPktMap.new : EarlyPktMap := []

/-- `HashMap::get_mut` lookup (`EarlyPktMap::get_mut`). -/
def EarlyPktMap.get : EarlyPktMap → FourTuple → Option Mailbox
  | [], _ => none
  | (k, v) :: rest, ft => if k = ft then some v else EarlyPktMap.get rest ft

/-- `HashMap::insert` (`EarlyPktMap::insert`): replaces the entry for the key
when present, otherwise appends it. -/
def EarlyPktMap.insert : EarlyPktMap → FourTuple → Mailbox → EarlyPktMap
  | [], ft, mb => [(ft, mb)]
  | (k, v) :: rest, ft, mb =>
    if k = ft then (ft, mb) :: rest else (k, v) :: EarlyPktMap.insert rest ft mb

/-- `HashMap::remove` (`EarlyPktMap::remove`): deletes the entry for the key. -/
def EarlyPktMap.remove : EarlyPktMap → FourTuple → EarlyPktMap
  | [], _ => []
  | (k, v) :: rest, ft =>
    if k = ft then EarlyPktMap.remove rest ft else (k, v) :: EarlyPktMap.remove rest ft

/-- The key set of the map (which 4-tuples have entries). -/
def EarlyPktMap.keys (m : EarlyPktMap) : List FourTuple := m.map Prod.fst

/-- `SendRes` from `src/early_pkt/channel.rs` lines 106-110. -/
inductive SendRes where
  | Ok
  | Full (buf : List Nat)
  | NotExist (buf : List Nat)
deriving DecidableEq

/-- `ConnChan` from `src/early_pkt/channel.rs` lines 9-14: the receive side of
a mailbox, bundled with the key under which its sender is stored.  The weak
reference to the shared map is passed explicitly to `ConnChan.remove` as the
result of the upgrade attempt (`none` when the map has been dropped). -/
structure ConnChan where
  early_pkt_key : FourTuple
deriving DecidableEq

/-- `ListenerChan::create_early_pkt_chan` from `src/early_pkt/channel.rs`
lines 63-75: makes a fresh capacity-1 channel, stores the sender in the map
under the 4-tuple and returns the receiver bundled with the key. -/
def ListenerChan.create_early_pkt_chan (map : EarlyPktMap) (four_tuple : FourTuple) :
    EarlyPktMap × ConnChan :=
  (EarlyPktMap.insert map four_tuple { queue := [], receiverLive := true },
   { early_pkt_key := four_tuple })

/-- `ListenerChan::send_early_pkt` from `src/early_pkt/channel.rs` lines 77-95:
look the 4-tuple up; absent gives `NotExist`; otherwise try-send, evicting the
entry when the receiver has been dropped. -/
def ListenerChan.send_early_pkt (map : EarlyPktMap) (four_tuple : FourTuple)
    (buf : List Nat) : EarlyPktMap × SendRes :=
  match EarlyPktMap.get map four_tuple with
  | none => (map, .NotExist buf)
  | some sender =>
    match Mailbox.trySend sender buf with
    | (sender', .ok) => (EarlyPktMap.insert map four_tuple sender', .Ok)
    | (_, .full b) => (map, .Full b)
    | (_, .disconnected b) => (EarlyPktMap.remove map four_tuple, .NotExist b)

/-- `ConnChan::remove` from `src/early_pkt/channel.rs` lines 16-21: upgrade
the weak reference; when the map is gone do nothing, otherwise remove this
connection's entry.  The argument is the outcome of `Weak::upgrade`. -/
def ConnChan.remove (c : ConnChan) (upgraded : Option EarlyPktMap) :
    Option EarlyPktMap :=
  match upgraded with
  | none => none
  | some map => some (EarlyPktMap.remove map c.early_pkt_key)

/-- `impl Drop for ConnChan` from `src/early_pkt/channel.rs` lines 42-46:
dropping the channel calls `remove`. -/
def ConnChan.drop (c : ConnChan) (upgraded : Option EarlyPktMap) :
    Option EarlyPktMap :=
  c.remove upgraded

/-- The connected socket made in `UdpListener::accept_raw` lines 113-124,
represented by the addresses it is bound and connected to. -/
structure UdpSocket where
  bound : SocketAddr
  connected : SocketAddr
deriving DecidableEq

/-- `UdpConn` from `src/conn.rs` lines 8-12. -/
structure UdpConn where
  socket : UdpSocket
  four_tuple : FourTuple
  early_pkt_recv : ConnChan
deriving DecidableEq

/-- `UdpConn::new` from `src/conn.rs` lines 14-25. -/
def UdpConn.new (socket : UdpSocket) (four_tuple : FourTuple)
    (early_pkt_recv : ConnChan) : UdpConn :=
  { socket := socket, four_tuple := four_tuple, early_pkt_recv := early_pkt_recv }

/-- `AcceptRes` from `src/listener.rs` lines 200-204. -/
inductive AcceptRes where
  | Ok (conn : UdpConn)
  | ConnAlreadyExists
  | Filtered
deriving DecidableEq

/-- `UdpListener::accept_raw` from `src/listener.rs` lines 96-136, with the
early-packet map passed as explicit state.  The result is `none` exactly when
the `unreachable` branch at line 132 would be hit (the crash path); otherwise
it is the updated map and the `AcceptRes`.  Socket syscalls are modelled as
always succeeding (their `io::Result` error path only propagates). -/
def UdpListener.accept_raw (local_ip_filter : IpFilter) (map : EarlyPktMap)
    (four_tuple : FourTuple) (rx_buf : List Nat) :
    Option (EarlyPktMap × AcceptRes) :=
  if IpFilter.pass local_ip_filter four_tuple.local_addr.ip = false then
    some (map, .Filtered)
  else
    let buf := rx_buf
    match ListenerChan.send_early_pkt map four_tuple buf with
    | (map1, .Ok) => some (map1, .ConnAlreadyExists)
    | (map1, .Full _) => some (map1, .ConnAlreadyExists)
    | (map1, .NotExist buf) =>
      let created := ListenerChan.create_early_pkt_chan map1 four_tuple
      let socket : UdpSocket :=
        { bound := four_tuple.local_addr, connected := four_tuple.remote_addr }
      let conn := UdpConn.new socket four_tuple created.2
      match ListenerChan.send_early_pkt created.1 conn.four_tuple buf with
      | (map3, .Ok) => some (map3, .Ok conn)
      | (map3, .Full _) => some (map3, .Ok conn)
      | (_, .NotExist _) => none

/-- `UdpListener::accept` from `src/listener.rs` lines 65-72, after
`recv_from_to` has produced `(four_tuple, len)` and filled `rx_buf`: the
payload handed to `accept_raw` is the copied slice `rx_buf[..len]`. -/
def UdpListener.accept (local_ip_filter : IpFilter) (map : EarlyPktMap)
    (four_tuple : FourTuple) (len : Nat) (rx_buf : List Nat) :
    Option ((EarlyPktMap × AcceptRes) × FourTuple × Nat) :=
  match UdpListener.accept_raw local_ip_filter map four_tuple (rx_buf.take len) with
  | none => none
  | some res => some (res, four_tuple, len)

/-- `UdpListener::accept_owned` from `src/listener.rs` lines 74-83, after
`recv_from_to`: the owned buffer is truncated to `len` before the handoff. -/
def UdpListener.accept_owned (local_ip_filter : IpFilter) (map : EarlyPktMap)
    (four_tuple : FourTuple) (len : Nat) (rx_buf : List Nat) :
    Option ((EarlyPktMap × AcceptRes) × FourTuple × Nat) :=
  let rx_buf1 := rx_buf.take len
  match UdpListener.accept_raw local_ip_filter map four_tuple rx_buf1 with
  | none => none
  | some res => some (res, four_tuple, len)

/-- `std::io::Error`: an OS error code (propagated syscall failures) or an
`ErrorKind::Other` error with its message. -/
inductive IoError where
  | os (code : Nat)
  | other (msg : String)
deriving DecidableEq

/-- Big-endian (network order) bytes to host-order numeric value; this is what
`u32::from_be` / `u16::from_be` compute on a field that holds wire bytes. -/
def fromBeBytes (bytes : List Nat) : Nat :=
  bytes.foldl (fun acc b => acc * 256 + b % 256) 0

/-- `in_addr_to_std` from `src/recv.rs` lines 105-109: `s_addr` holds the four
wire-order bytes; `u32::from_be` converts them to the host-order value. -/
def in_addr_to_std (s_addr : List Nat) : Ipv4Addr :=
  { bits := fromBeBytes s_addr }

/-- A control message as decoded by `nix` `msg.cmsgs()`: the v4 pktinfo
carries the four wire-order bytes of `ipi_addr`, the v6 pktinfo the 16-byte
`ipi6_addr.s6_addr` array, and `other` stands for any other message kind. -/
inductive ControlMessageOwned where
  | Ipv4PacketInfo (ipi_addr : List Nat)
  | Ipv6PacketInfo (s6_addr : List Nat)
  | other
deriving DecidableEq

/-- Whether a control message is one of the two pktinfo kinds. -/
def ControlMessageOwned.isPktinfo : ControlMessageOwned → Bool
  | .Ipv4PacketInfo _ => true
  | .Ipv6PacketInfo _ => true
  | .other => false

/-- `nix` `SockaddrStorage` as returned in `msg.address`: an `AF_INET`
`sockaddr_in` (wire-order address and port bytes), an `AF_INET6`
`sockaddr_in6`, or a sockaddr of any other family. -/
inductive SockaddrStorage where
  | sin (sin_addr : List Nat) (sin_port : List Nat)
  | sin6 (sin6_addr : List Nat) (sin6_port : List Nat)
  | otherFamily
deriving DecidableEq

/-- `sockaddr_in_to_std` from `src/recv.rs` lines 111-115. -/
def sockaddr_in_to_std (sin_addr sin_port : List Nat) : SocketAddr :=
  { ip := .V4 (in_addr_to_std sin_addr), port := fromBeBytes sin_port }

/-- `sockaddr_in6_to_std` from `src/recv.rs` lines 117-121: the 16-byte
address is taken as is, the port is byte-swapped to host order. -/
def sockaddr_in6_to_std (sin6_addr sin6_port : List Nat) : SocketAddr :=
  { ip := .V6 { octets := sin6_addr }, port := fromBeBytes sin6_port }

/-- `storage_to_std` from `src/recv.rs` lines 89-103: `none` when the
sockaddr is neither `AF_INET` nor `AF_INET6`. -/
def storage_to_std : SockaddrStorage → Option SocketAddr
  | .sin sin_addr sin_port => some (sockaddr_in_to_std sin_addr sin_port)
  | .sin6 sin6_addr sin6_port => some (sockaddr_in6_to_std sin6_addr sin6_port)
  | .otherFamily => none

/-- The visible outcome of the `recvmsg` syscall inside `recv_from_to`: the
decoded control messages, the peer sockaddr (`msg.address`), and the datagram
payload the kernel wrote into the caller's buffer (`msg.bytes` is its
length). -/
structure RecvMsg where
  cmsgs : List ControlMessageOwned
  address : Option SockaddrStorage
  payload : List Nat
deriving DecidableEq

/-- `msg.bytes`: the byte count `recvmsg` reports. -/
def RecvMsg.bytes (m : RecvMsg) : Nat := m.payload.length

/-- Modelled from the spec: the kernel `recvmsg` scatter-write of the datagram
payload into the front of the caller's buffer (the payload fits the buffer;
the tail is untouched). -/
def recvmsgWrite (rx_buf : List Nat) (m : RecvMsg) : List Nat :=
  m.payload ++ rx_buf.drop m.payload.length

/-- One iteration of the loop over `msg.cmsgs()` at `src/recv.rs` lines
52-63: a pktinfo message overwrites `local_addr_ip`, anything else keeps it. -/
def scanStep (acc : Option IpAddr) (cmsg : ControlMessageOwned) : Option IpAddr :=
  match cmsg with
  | .Ipv4PacketInfo info => some (IpAddr.V4 (in_addr_to_std info))
  | .Ipv6PacketInfo s6 => some (IpAddr.V6 { octets := s6 })
  | .other => acc

/-- The whole scan over `msg.cmsgs()`: the last pktinfo message wins. -/
def scanLocalIp (cmsgs : List ControlMessageOwned) : Option IpAddr :=
  cmsgs.foldl scanStep none

/-- `recv_from_to` from `src/recv.rs` lines 19-87, as a function of the
`recvmsg` outcome (`.error e` when the syscall fails) and the caller-supplied
`listen_port`. -/
def recv_from_to (recvmsgResult : Except IoError RecvMsg) (listen_port : Nat) :
    Except IoError (FourTuple × Nat) :=
  match recvmsgResult with
  | .error e => .error e
  | .ok msg =>
    match scanLocalIp msg.cmsgs with
    | none => .error (.other "recvmsg did not return a local address")
    | some local_addr_ip =>
      let local_addr : SocketAddr := { ip := local_addr_ip, port := listen_port }
      match msg.address with
      | none => .error (.other "recvmsg did not return a remote address")
      | some ss =>
        match storage_to_std ss with
        | none => .error (.other "recvmsg returned an invalid remote address")
        | some remote_addr =>
          .ok ({ local_addr := local_addr, remote_addr := remote_addr }, msg.bytes)

/-- `RecvRes` from `src/conn.rs` lines 66-69. -/
inductive RecvRes where
  | Ok
  | ListenerPkt (four_tuple : FourTuple)
deriving DecidableEq

/-- `UdpConn::recv` from `src/conn.rs` lines 40-50: receive on the
connection's own socket and compare the recovered 4-tuple with the stored
one. -/
def UdpConn.recv (conn : UdpConn) (recvmsgResult : Except IoError RecvMsg) :
    Except IoError (RecvRes × Nat) :=
  match recv_from_to recvmsgResult conn.four_tuple.local_addr.port with
  | .error e => .error e
  | .ok (four_tuple, len) =>
    if four_tuple ≠ conn.four_tuple then .ok (.ListenerPkt four_tuple, len)
    else .ok (.Ok, len)

/-- The map has an entry for the 4-tuple whose receiver is still live: the
state in which `send_early_pkt` answers `Ok` or `Full` (a connection exists
for the 4-tuple). -/
def liveEntry (map : EarlyPktMap) (ft : FourTuple) : Bool :=
  match EarlyPktMap.get map ft with
  | some mb => mb.receiverLive
  | none => false

/-- A sequence of `accept_raw` calls on one listener, one per received
datagram (its 4-tuple and payload), threading the early-packet map.  A `none`
from `accept_raw` is the crash of the `unreachable` branch and truncates the
trace. -/
def acceptTrace (local_ip_filter : IpFilter) :
    EarlyPktMap → List (FourTuple × List Nat) → EarlyPktMap × List AcceptRes
  | map, [] => (map, [])
  | map, (ft, buf) :: rest =>
    match UdpListener.accept_raw local_ip_filter map ft buf with
    | none => (map, [])
    | some (map1, r) =>
      let next := acceptTrace local_ip_filter map1 rest
      (next.1, r :: next.2)

/-- Sample local endpoint 127.0.0.1:12345 used in concrete instances. -/
def sampleLocal : SocketAddr :=
  { ip := .V4 { bits := 2130706433 }, port := 12345 }

/-- Sample remote endpoint 127.0.0.1:54321 used in concrete instances. -/
def sampleRemote : SocketAddr :=
  { ip := .V4 { bits := 2130706433 }, port := 54321 }

/-- Sample 4-tuple used in concrete instances. -/
def sampleTuple : FourTuple :=
  { local_addr := sampleLocal, remote_addr := sampleRemote }

theorem EarlyPktMap.get_insert_self (m : EarlyPktMap) (ft : FourTuple) (mb : Mailbox) :
    EarlyPktMap.get (EarlyPktMap.insert m ft mb) ft = some mb := by
  induction m with
  | nil => simp [EarlyPktMap.insert, EarlyPktMap.get]
  | cons hd tl ih =>
    obtain ⟨k, v⟩ := hd
    by_cases hk : k = ft
    · simp [EarlyPktMap.insert, EarlyPktMap.get, hk]
    · simp [EarlyPktMap.insert, EarlyPktMap.get, hk, ih]

theorem EarlyPktMap.get_insert_ne (m : EarlyPktMap) (ft ft' : FourTuple) (mb : Mailbox)
    (h : ft' ≠ ft) :
    EarlyPktMap.get (EarlyPktMap.insert m ft mb) ft' = EarlyPktMap.get m ft' := by
  induction m with
  | nil => simp [EarlyPktMap.insert, EarlyPktMap.get, Ne.symm h]
  | cons hd tl ih =>
    obtain ⟨k, v⟩ := hd
    by_cases hk : k = ft
    · subst hk
      simp [EarlyPktMap.insert, EarlyPktMap.get, Ne.symm h]
    · simp [EarlyPktMap.insert, EarlyPktMap.get, hk, ih]

theorem EarlyPktMap.get_remove_self (m : EarlyPktMap) (ft : FourTuple) :
    EarlyPktMap.get (EarlyPktMap.remove m ft) ft = none := by
  induction m with
  | nil => simp [EarlyPktMap.remove, EarlyPktMap.get]
  | cons hd tl ih =>
    obtain ⟨k, v⟩ := hd
    by_cases hk : k = ft
    · simp [EarlyPktMap.remove, hk, ih]
    · simp [EarlyPktMap.remove, EarlyPktMap.get, hk, ih]

theorem EarlyPktMap.get_remove_ne (m : EarlyPktMap) (ft ft' : FourTuple) (h : ft' ≠ ft) :
    EarlyPktMap.get (EarlyPktMap.remove m ft) ft' = EarlyPktMap.get m ft' := by
  induction m with
  | nil => simp [EarlyPktMap.remove]
  | cons hd tl ih =>
    obtain ⟨k, v⟩ := hd
    by_cases hk : k = ft
    · subst hk
      simp [EarlyPktMap.remove, EarlyPktMap.get, Ne.symm h, ih]
    · simp [EarlyPktMap.remove, EarlyPktMap.get, hk, ih]

theorem EarlyPktMap.keys_insert_of_get_some (m : EarlyPktMap) (ft : FourTuple)
    (mb0 mb : Mailbox) (h : EarlyPktMap.get m ft = some mb0) :
    EarlyPktMap.keys (EarlyPktMap.insert m ft mb) = EarlyPktMap.keys m := by
  induction m with
  | nil => simp [EarlyPktMap.get] at h
  | cons hd tl ih =>
    obtain ⟨k, v⟩ := hd
    by_cases hk : k = ft
    · subst hk
      simp [EarlyPktMap.insert, EarlyPktMap.keys]
    · simp [EarlyPktMap.get, hk] at h
      simp [EarlyPktMap.insert, EarlyPktMap.keys, hk] at ih ⊢
      exact ih h

/-- C1 counterexample: the claim says `IpFilter.pass` returns `false` for any
IP of a different family than the configuration, including the accept-all
configuration `V6(None)`.  On the code, `V6(None)` builds `AlwaysPass`, and
`AlwaysPass` accepts the IPv4 address 127.0.0.1, so `pass` is `true` there,
not `false`. -/
theorem ipFilter_pass_wrong_family_cex :
    ¬ (IpFilter.pass (IpFilterConfig.build (.V6 none))
        (IpAddr.V4 { bits := 2130706433 }) = false) := by
  decide

/-- C1 (amended): `IpFilter.pass` rejects an IP of a different family for the
allow-list configurations `V4(Some set)` / `V6(Some set)`; the accept-all
configurations `V4(None)` / `V6(None)` build `AlwaysPass`, which accepts
every IP of either family, so a wrong-family local IP is not filtered under
an accept-all configuration. -/
theorem ipFilter_pass_family :
    (∀ (s : List Ipv4Addr) (a : Ipv6Addr), IpFilter.pass (.V4 s) (.V6 a) = false)
    ∧ (∀ (s : List Ipv6Addr) (a : Ipv4Addr), IpFilter.pass (.V6 s) (.V4 a) = false)
    ∧ (∀ (s : List Ipv4Addr) (a : Ipv6Addr),
        IpFilter.pass (IpFilterConfig.build (.V4 (some s))) (.V6 a) = false)
    ∧ (∀ (s : List Ipv6Addr) (a : Ipv4Addr),
        IpFilter.pass (IpFilterConfig.build (.V6 (some s))) (.V4 a) = false)
    ∧ IpFilterConfig.build (.V4 none) = .AlwaysPass
    ∧ IpFilterConfig.build (.V6 none) = .AlwaysPass
    ∧ (∀ a : IpAddr, IpFilter.pass .AlwaysPass a = true) := by
  exact ⟨fun s a => rfl, fun s a => rfl, fun s a => rfl, fun s a => rfl,
    rfl, rfl, fun a => rfl⟩

theorem send_early_pkt_of_get_none (map : EarlyPktMap) (ft : FourTuple)
    (buf : List Nat) (h : EarlyPktMap.get map ft = none) :
    ListenerChan.send_early_pkt map ft buf = (map, SendRes.NotExist buf) := by
  simp [ListenerChan.send_early_pkt, h]

theorem send_early_pkt_of_live_empty (map : EarlyPktMap) (ft : FourTuple)
    (buf : List Nat) (mb : Mailbox) (h : EarlyPktMap.get map ft = some mb)
    (hlive : mb.receiverLive = true) (hq : mb.queue = []) :
    ListenerChan.send_early_pkt map ft buf
      = (EarlyPktMap.insert map ft { queue := [buf], receiverLive := true },
         SendRes.Ok) := by
  have hmb : mb = { queue := [], receiverLive := true } := by
    cases mb
    simp_all
  subst hmb
  simp [ListenerChan.send_early_pkt, h, Mailbox.trySend]

theorem send_early_pkt_of_live_full (map : EarlyPktMap) (ft : FourTuple)
    (buf : List Nat) (mb : Mailbox) (h : EarlyPktMap.get map ft = some mb)
    (hlive : mb.receiverLive = true) (hq : mb.queue ≠ []) :
    ListenerChan.send_early_pkt map ft buf = (map, SendRes.Full buf) := by
  have hlen : 1 ≤ mb.queue.length := by
    cases hmq : mb.queue with
    | nil => exact absurd hmq hq
    | cons a l => simp
  simp [ListenerChan.send_early_pkt, h, Mailbox.trySend, hlive, hlen]

theorem send_early_pkt_of_dead (map : EarlyPktMap) (ft : FourTuple)
    (buf : List Nat) (mb : Mailbox) (h : EarlyPktMap.get map ft = some mb)
    (hdead : mb.receiverLive = false) :
    ListenerChan.send_early_pkt map ft buf
      = (EarlyPktMap.remove map ft, SendRes.NotExist buf) := by
  simp [ListenerChan.send_early_pkt, h, Mailbox.trySend, hdead]

theorem trySend_ok_inv (mb mb' : Mailbox) (buf : List Nat)
    (ht : Mailbox.trySend mb buf = (mb', TrySendRes.ok)) :
    mb' = { queue := mb.queue ++ [buf], receiverLive := true }
    ∧ mb.receiverLive = true ∧ mb.queue = [] := by
  unfold Mailbox.trySend at ht
  by_cases h1 : mb.receiverLive = false
  · simp [h1] at ht
  · by_cases h2 : 1 ≤ mb.queue.length
    · simp [h1, h2] at ht
    · simp [h1, h2] at ht
      have hq : mb.queue = [] := by
        cases hmq : mb.queue with
        | nil => rfl
        | cons a l => rw [hmq] at h2; simp at h2
      exact ⟨ht.symm, by simp_all, hq⟩

theorem trySend_full_inv (mb mb' : Mailbox) (buf b : List Nat)
    (ht : Mailbox.trySend mb buf = (mb', TrySendRes.full b)) :
    mb.receiverLive = true ∧ mb.queue ≠ [] ∧ mb' = mb ∧ b = buf := by
  unfold Mailbox.trySend at ht
  by_cases h1 : mb.receiverLive = false
  · simp [h1] at ht
  · by_cases h2 : 1 ≤ mb.queue.length
    · simp [h1, h2] at ht
      refine ⟨by simp_all, ?_, ht.1.symm, ht.2.symm⟩
      cases hmq : mb.queue with
      | nil => rw [hmq] at h2; simp at h2
      | cons a l => simp
    · simp [h1, h2] at ht

theorem trySend_disconnected_inv (mb mb' : Mailbox) (buf b : List Nat)
    (ht : Mailbox.trySend mb buf = (mb', TrySendRes.disconnected b)) :
    mb.receiverLive = false ∧ mb' = mb ∧ b = buf := by
  unfold Mailbox.trySend at ht
  by_cases h1 : mb.receiverLive = false
  · simp [h1] at ht
    exact ⟨h1, ht.1.symm, ht.2.symm⟩
  · by_cases h2 : 1 ≤ mb.queue.length
    · simp [h1, h2] at ht
    · simp [h1, h2] at ht

theorem send_preserves_live (map mapA : EarlyPktMap) (ft' ft : FourTuple)
    (buf : List Nat) (rA : SendRes)
    (hsend : ListenerChan.send_early_pkt map ft' buf = (mapA, rA))
    (h : liveEntry map ft = true) : liveEntry mapA ft = true := by
  cases hg : EarlyPktMap.get map ft' with
  | none =>
    simp [ListenerChan.send_early_pkt, hg] at hsend
    rw [← hsend.1]
    exact h
  | some mb =>
    rcases ht : Mailbox.trySend mb buf with ⟨mb', t⟩
    cases t with
    | ok =>
      obtain ⟨hmb', hlive, hq⟩ := trySend_ok_inv mb mb' buf ht
      simp [ListenerChan.send_early_pkt, hg, ht] at hsend
      rw [← hsend.1]
      by_cases hft : ft = ft'
      · subst hft
        simp [liveEntry, EarlyPktMap.get_insert_self, hmb', hlive]
      · simp [liveEntry, EarlyPktMap.get_insert_ne _ _ _ _ hft]
        simpa [liveEntry] using h
    | full b =>
      simp [ListenerChan.send_early_pkt, hg, ht] at hsend
      rw [← hsend.1]
      exact h
    | disconnected b =>
      obtain ⟨hdead, _, _⟩ := trySend_disconnected_inv mb mb' buf b ht
      simp [ListenerChan.send_early_pkt, hg, ht] at hsend
      rw [← hsend.1]
      by_cases hft : ft = ft'
      · subst hft
        simp [liveEntry, hg, hdead] at h
      · simp [liveEntry, EarlyPktMap.get_remove_ne _ _ _ hft]
        simpa [liveEntry] using h

theorem send_not_exist_inv (map mapA : EarlyPktMap) (ft : FourTuple)
    (buf b : List Nat)
    (hsend : ListenerChan.send_early_pkt map ft buf = (mapA, SendRes.NotExist b)) :
    b = buf ∧ EarlyPktMap.get mapA ft = none ∧ liveEntry map ft = false := by
  cases hg : EarlyPktMap.get map ft with
  | none =>
    simp [ListenerChan.send_early_pkt, hg] at hsend
    refine ⟨hsend.2.symm, ?_, by simp [liveEntry, hg]⟩
    rw [← hsend.1]
    exact hg
  | some mb =>
    rcases ht : Mailbox.trySend mb buf with ⟨mb', t⟩
    cases t with
    | ok => simp [ListenerChan.send_early_pkt, hg, ht] at hsend
    | full b0 => simp [ListenerChan.send_early_pkt, hg, ht] at hsend
    | disconnected b0 =>
      obtain ⟨hdead, _, hb0⟩ := trySend_disconnected_inv mb mb' buf b0 ht
      simp [ListenerChan.send_early_pkt, hg, ht] at hsend
      refine ⟨by rw [← hsend.2, hb0], ?_, by simp [liveEntry, hg, hdead]⟩
      rw [← hsend.1]
      exact EarlyPktMap.get_remove_self map ft

theorem accept_raw_of_not_pass (f : IpFilter) (map : EarlyPktMap)
    (ft : FourTuple) (buf : List Nat)
    (h : IpFilter.pass f ft.local_addr.ip = false) :
    UdpListener.accept_raw f map ft buf = some (map, AcceptRes.Filtered) := by
  simp [UdpListener.accept_raw, h]

theorem accept_raw_of_live (f : IpFilter) (map : EarlyPktMap) (ft : FourTuple)
    (buf : List Nat) (hpass : IpFilter.pass f ft.local_addr.ip = true)
    (hlive : liveEntry map ft = true) :
    ∃ map1, UdpListener.accept_raw f map ft buf
        = some (map1, AcceptRes.ConnAlreadyExists)
      ∧ EarlyPktMap.keys map1 = EarlyPktMap.keys map
      ∧ liveEntry map1 ft = true := by
  cases hg : EarlyPktMap.get map ft with
  | none => simp [liveEntry, hg] at hlive
  | some mb =>
    have hmb : mb.receiverLive = true := by simpa [liveEntry, hg] using hlive
    cases hq : mb.queue with
    | nil =>
      have hsend := send_early_pkt_of_live_empty map ft buf mb hg hmb hq
      refine ⟨EarlyPktMap.insert map ft { queue := [buf], receiverLive := true },
        ?_, ?_, ?_⟩
      · simp [UdpListener.accept_raw, hpass, hsend]
      · exact EarlyPktMap.keys_insert_of_get_some map ft mb _ hg
      · simp [liveEntry, EarlyPktMap.get_insert_self]
    | cons a l =>
      have hsend := send_early_pkt_of_live_full map ft buf mb hg hmb (by simp [hq])
      refine ⟨map, ?_, rfl, hlive⟩
      simp [UdpListener.accept_raw, hpass, hsend]

theorem accept_raw_isSome (f : IpFilter) (map : EarlyPktMap) (ft : FourTuple)
    (buf : List Nat) :
    (UdpListener.accept_raw f map ft buf).isSome = true := by
  cases hp : IpFilter.pass f ft.local_addr.ip with
  | false => simp [UdpListener.accept_raw, hp]
  | true =>
    rcases hsend : ListenerChan.send_early_pkt map ft buf with ⟨map1, r⟩
    cases r with
    | Ok => simp [UdpListener.accept_raw, hp, hsend]
    | Full b => simp [UdpListener.accept_raw, hp, hsend]
    | NotExist b =>
      have hfresh := EarlyPktMap.get_insert_self map1 ft
        { queue := [], receiverLive := true }
      have hsend2 := send_early_pkt_of_live_empty
        (EarlyPktMap.insert map1 ft { queue := [], receiverLive := true })
        ft b _ hfresh rfl rfl
      simp [UdpListener.accept_raw, hp, hsend,
        ListenerChan.create_early_pkt_chan, UdpConn.new, hsend2]

theorem accept_raw_ok_inv (f : IpFilter) (map : EarlyPktMap) (ft : FourTuple)
    (buf : List Nat) (map1 : EarlyPktMap) (conn : UdpConn)
    (h : UdpListener.accept_raw f map ft buf = some (map1, AcceptRes.Ok conn)) :
    liveEntry map ft = false ∧ liveEntry map1 ft = true
    ∧ conn.four_tuple = ft
    ∧ EarlyPktMap.get map1 ft = some { queue := [buf], receiverLive := true } := by
  cases hp : IpFilter.pass f ft.local_addr.ip with
  | false => simp [UdpListener.accept_raw, hp] at h
  | true =>
    rcases hsend : ListenerChan.send_early_pkt map ft buf with ⟨mapA, r⟩
    cases r with
    | Ok => simp [UdpListener.accept_raw, hp, hsend] at h
    | Full b => simp [UdpListener.accept_raw, hp, hsend] at h
    | NotExist b =>
      obtain ⟨hb, hgA, hnotlive⟩ := send_not_exist_inv map mapA ft buf b hsend
      have hfresh := EarlyPktMap.get_insert_self mapA ft
        { queue := [], receiverLive := true }
      have hsend2 := send_early_pkt_of_live_empty
        (EarlyPktMap.insert mapA ft { queue := [], receiverLive := true })
        ft b _ hfresh rfl rfl
      simp [UdpListener.accept_raw, hp, hsend,
        ListenerChan.create_early_pkt_chan, UdpConn.new, hsend2] at h
      subst hb
      refine ⟨hnotlive, ?_, ?_, ?_⟩
      · rw [← h.1]
        simp [liveEntry, EarlyPktMap.get_insert_self]
      · rw [← h.2]
      · rw [← h.1]
        exact EarlyPktMap.get_insert_self _ ft _

theorem accept_raw_preserves_live (f : IpFilter) (map map1 : EarlyPktMap)
    (ft' ft : FourTuple) (buf : List Nat) (r : AcceptRes)
    (hstep : UdpListener.accept_raw f map ft' buf = some (map1, r))
    (h : liveEntry map ft = true) : liveEntry map1 ft = true := by
  cases hp : IpFilter.pass f ft'.local_addr.ip with
  | false =>
    simp [UdpListener.accept_raw, hp] at hstep
    rw [← hstep.1]
    exact h
  | true =>
    rcases hsend : ListenerChan.send_early_pkt map ft' buf with ⟨mapA, rA⟩
    cases rA with
    | Ok =>
      simp [UdpListener.accept_raw, hp, hsend] at hstep
      rw [← hstep.1]
      exact send_preserves_live map mapA ft' ft buf _ hsend h
    | Full b =>
      simp [UdpListener.accept_raw, hp, hsend] at hstep
      rw [← hstep.1]
      exact send_preserves_live map mapA ft' ft buf _ hsend h
    | NotExist b =>
      have hliveA := send_preserves_live map mapA ft' ft buf _ hsend h
      have hfresh := EarlyPktMap.get_insert_self mapA ft'
        { queue := [], receiverLive := true }
      have hsend2 := send_early_pkt_of_live_empty
        (EarlyPktMap.insert mapA ft' { queue := [], receiverLive := true })
        ft' b _ hfresh rfl rfl
      simp [UdpListener.accept_raw, hp, hsend,
        ListenerChan.create_early_pkt_chan, UdpConn.new, hsend2] at hstep
      rw [← hstep.1]
      by_cases hft : ft = ft'
      · subst hft
        simp [liveEntry, EarlyPktMap.get_insert_self]
      · simp [liveEntry, EarlyPktMap.get_insert_ne _ _ _ _ hft]
        simpa [liveEntry] using hliveA

theorem acceptTrace_all_conn_already_exists (f : IpFilter) (ft : FourTuple)
    (hpass : IpFilter.pass f ft.local_addr.ip = true) :
    ∀ (steps : List (FourTuple × List Nat)) (map : EarlyPktMap),
      liveEntry map ft = true →
      ∀ (i : Nat) (buf : List Nat), steps[i]? = some (ft, buf) →
        ((acceptTrace f map steps).2)[i]? = some AcceptRes.ConnAlreadyExists := by
  intro steps
  induction steps with
  | nil =>
    intro map hlive i buf hstep
    simp at hstep
  | cons hd rest ih =>
    obtain ⟨ft0, buf0⟩ := hd
    intro map hlive i buf hstep
    have hsome := accept_raw_isSome f map ft0 buf0
    cases harw : UdpListener.accept_raw f map ft0 buf0 with
    | none => rw [harw] at hsome; simp at hsome
    | some p =>
      obtain ⟨map1, r⟩ := p
      have hlive1 : liveEntry map1 ft = true :=
        accept_raw_preserves_live f map map1 ft0 ft buf0 r harw hlive
      cases i with
      | zero =>
        simp at hstep
        obtain ⟨hft0, hbuf0⟩ := hstep
        subst hft0
        obtain ⟨map1', heq, _, _⟩ := accept_raw_of_live f map ft0 buf0 hpass hlive
        rw [harw] at heq
        have hr : r = AcceptRes.ConnAlreadyExists := by
          injection heq with h1
          exact congrArg Prod.snd h1
        subst hr
        simp [acceptTrace, harw]
      | succ n =>
        simp at hstep
        have := ih map1 hlive1 n buf hstep
        simp [acceptTrace, harw]
        exact this

/-- C2: across the lifetime of a single map entry, `accept` hands out
`Ok(Conn)` exactly once.  While the entry for a 4-tuple lives (its receiver
has not been dropped, so the early-packet send answers `Ok` or `Full`), every
`accept_raw` on a datagram with that 4-tuple returns `ConnAlreadyExists`,
creates no connection socket and no map entry (the key set is unchanged), and
this holds along any whole sequence of `accept_raw` calls; conversely an
`Ok(Conn)` is produced only from a state with no live entry, and it makes the
entry live. -/
theorem accept_ok_exactly_once_per_entry (f : IpFilter) (map : EarlyPktMap)
    (ft : FourTuple)
    (h_pass : IpFilter.pass f ft.local_addr.ip = true)
    (h_live : liveEntry map ft = true) :
    (∀ buf, ∃ map1,
      UdpListener.accept_raw f map ft buf
        = some (map1, AcceptRes.ConnAlreadyExists)
      ∧ EarlyPktMap.keys map1 = EarlyPktMap.keys map
      ∧ liveEntry map1 ft = true)
    ∧ (∀ (steps : List (FourTuple × List Nat)) (i : Nat) (buf : List Nat),
        steps[i]? = some (ft, buf) →
        ((acceptTrace f map steps).2)[i]? = some AcceptRes.ConnAlreadyExists)
    ∧ (∀ (map0 map1 : EarlyPktMap) (buf : List Nat) (conn : UdpConn),
        UdpListener.accept_raw f map0 ft buf = some (map1, AcceptRes.Ok conn) →
        liveEntry map0 ft = false ∧ liveEntry map1 ft = true) := by
  refine ⟨fun buf => accept_raw_of_live f map ft buf h_pass h_live,
    fun steps i buf hstep =>
      acceptTrace_all_conn_already_exists f ft h_pass steps map h_live i buf hstep,
    fun map0 map1 buf conn hok => ?_⟩
  obtain ⟨h1, h2, _, _⟩ := accept_raw_ok_inv f map0 ft buf map1 conn hok
  exact ⟨h1, h2⟩

/-- C2 witness: with an accept-all filter and a live entry for the sample
4-tuple, a further `accept_raw` on that 4-tuple answers `ConnAlreadyExists`
without changing the key set. -/
theorem accept_ok_exactly_once_per_entry_witness :
    IpFilter.pass IpFilter.AlwaysPass sampleTuple.local_addr.ip = true
    ∧ liveEntry [(sampleTuple, { queue := [], receiverLive := true })] sampleTuple = true
    ∧ ∃ map1, UdpListener.accept_raw IpFilter.AlwaysPass
          [(sampleTuple, { queue := [], receiverLive := true })] sampleTuple [7]
        = some (map1, AcceptRes.ConnAlreadyExists)
      ∧ EarlyPktMap.keys map1
          = EarlyPktMap.keys [(sampleTuple, { queue := [], receiverLive := true })]
      ∧ liveEntry map1 sampleTuple = true :=
  ⟨by decide, by decide,
    (accept_ok_exactly_once_per_entry IpFilter.AlwaysPass
      [(sampleTuple, { queue := [], receiverLive := true })] sampleTuple
      (by decide) (by decide)).1 [7]⟩

/-- C3: the early-packet send.  With no entry for the 4-tuple it returns
`NotExist` with the buffer; with a live entry it try-sends without blocking,
`Ok` when the bounded-1 mailbox is empty (the buffer is enqueued) and `Full`
with the buffer when the slot is occupied; and when the receiver has been
dropped it evicts the entry (the 4-tuple is no longer in the map) and
returns `NotExist` with the buffer. -/
theorem send_early_pkt_spec (map : EarlyPktMap) (four_tuple : FourTuple)
    (buf : List Nat) :
    (EarlyPktMap.get map four_tuple = none →
      ListenerChan.send_early_pkt map four_tuple buf
        = (map, SendRes.NotExist buf))
    ∧ (∀ mb, EarlyPktMap.get map four_tuple = some mb →
        mb.receiverLive = true → mb.queue = [] →
        ListenerChan.send_early_pkt map four_tuple buf
          = (EarlyPktMap.insert map four_tuple
              { queue := [buf], receiverLive := true }, SendRes.Ok))
    ∧ (∀ mb, EarlyPktMap.get map four_tuple = some mb →
        mb.receiverLive = true → mb.queue ≠ [] →
        ListenerChan.send_early_pkt map four_tuple buf
          = (map, SendRes.Full buf))
    ∧ (∀ mb, EarlyPktMap.get map four_tuple = some mb →
        mb.receiverLive = false →
        ListenerChan.send_early_pkt map four_tuple buf
          = (EarlyPktMap.remove map four_tuple, SendRes.NotExist buf)
        ∧ EarlyPktMap.get (EarlyPktMap.remove map four_tuple) four_tuple
            = none) := by
  refine ⟨fun h => send_early_pkt_of_get_none map four_tuple buf h,
    fun mb h hlive hq => send_early_pkt_of_live_empty map four_tuple buf mb h hlive hq,
    fun mb h hlive hq => send_early_pkt_of_live_full map four_tuple buf mb h hlive hq,
    fun mb h hdead => ⟨send_early_pkt_of_dead map four_tuple buf mb h hdead,
      EarlyPktMap.get_remove_self map four_tuple⟩⟩

/-- C3 witness: on the empty map the send reports `NotExist` and hands the
buffer back; on a map whose entry's receiver is dropped, the entry is
evicted. -/
theorem send_early_pkt_spec_witness :
    (EarlyPktMap.get [] sampleTuple = none
      ∧ ListenerChan.send_early_pkt [] sampleTuple [1, 2]
          = ([], SendRes.NotExist [1, 2]))
    ∧ ((⟨[], false⟩ : Mailbox).receiverLive = false
      ∧ ListenerChan.send_early_pkt [(sampleTuple, ⟨[], false⟩)] sampleTuple [3]
          = (EarlyPktMap.remove [(sampleTuple, ⟨[], false⟩)] sampleTuple,
             SendRes.NotExist [3])) :=
  ⟨⟨rfl, (send_early_pkt_spec [] sampleTuple [1, 2]).1 rfl⟩,
   ⟨rfl, ((send_early_pkt_spec [(sampleTuple, ⟨[], false⟩)] sampleTuple [3]).2.2.2
      ⟨[], false⟩ (by decide) rfl).1⟩⟩

/-- C4: when the recovered local IP fails the filter, `accept` (and
`accept_owned`) return `Filtered` together with the recovered 4-tuple and the
payload length, and the early-packet map is returned exactly as it was: no
mailbox is created, no entry inserted, no send attempted. -/
theorem accept_filtered_map_unchanged (f : IpFilter) (map : EarlyPktMap)
    (ft : FourTuple) (len : Nat) (rx_buf : List Nat)
    (h : IpFilter.pass f ft.local_addr.ip = false) :
    UdpListener.accept f map ft len rx_buf
      = some ((map, AcceptRes.Filtered), ft, len)
    ∧ UdpListener.accept_owned f map ft len rx_buf
      = some ((map, AcceptRes.Filtered), ft, len) := by
  have h1 := accept_raw_of_not_pass f map ft (rx_buf.take len) h
  constructor
  · simp [UdpListener.accept, h1]
  · simp [UdpListener.accept_owned, h1]

/-- C4 witness: an empty v4 allow-list rejects the sample local IP, and
`accept` reports `Filtered` with the recovered 4-tuple and length, leaving
the empty map empty. -/
theorem accept_filtered_map_unchanged_witness :
    IpFilter.pass (IpFilter.V4 []) sampleTuple.local_addr.ip = false
    ∧ UdpListener.accept (IpFilter.V4 []) [] sampleTuple 2 [9, 9, 9]
        = some (([], AcceptRes.Filtered), sampleTuple, 2) :=
  ⟨by decide,
   (accept_filtered_map_unchanged (IpFilter.V4 []) [] sampleTuple 2 [9, 9, 9]
      (by decide)).1⟩

/-- C7: in `accept_raw`, once the fresh capacity-1 mailbox has been inserted
for the 4-tuple, pushing the buffered first packet into it always succeeds in
the sequential model (one `accept` caller): the push returns `Ok` (so `Full`
and the disconnected `NotExist` are unreachable there) and `accept_raw` never
reaches its `unreachable` branch (it always returns a result). -/
theorem accept_raw_second_send_ok (f : IpFilter) (map : EarlyPktMap)
    (ft : FourTuple) (buf : List Nat) :
    (ListenerChan.send_early_pkt
        (ListenerChan.create_early_pkt_chan map ft).1 ft buf).2 = SendRes.Ok
    ∧ (UdpListener.accept_raw f map ft buf).isSome = true := by
  constructor
  · have hfresh := EarlyPktMap.get_insert_self map ft
      { queue := [], receiverLive := true }
    have hsend := send_early_pkt_of_live_empty
      (EarlyPktMap.insert map ft { queue := [], receiverLive := true })
      ft buf _ hfresh rfl rfl
    simp [ListenerChan.create_early_pkt_chan, hsend]
  · exact accept_raw_isSome f map ft buf

/-- C8: dropping a connection's channel removes its entry (keyed by its
4-tuple) from the early-packet map when the weak reference still upgrades;
afterwards the key has no entry.  When the map is already gone the upgrade
fails and the drop is a no-op.  Both are total: neither drop order fails. -/
theorem conn_drop_removes_entry (c : ConnChan) (map : EarlyPktMap) :
    ConnChan.drop c (some map)
      = some (EarlyPktMap.remove map c.early_pkt_key)
    ∧ EarlyPktMap.get (EarlyPktMap.remove map c.early_pkt_key)
        c.early_pkt_key = none
    ∧ ConnChan.drop c none = none := by
  exact ⟨rfl, EarlyPktMap.get_remove_self map c.early_pkt_key, rfl⟩

theorem accept_raw_filtered_inv (f : IpFilter) (map : EarlyPktMap)
    (ft : FourTuple) (buf : List Nat) (map1 : EarlyPktMap)
    (h : UdpListener.accept_raw f map ft buf = some (map1, AcceptRes.Filtered)) :
    map1 = map := by
  cases hp : IpFilter.pass f ft.local_addr.ip with
  | false =>
    simp [UdpListener.accept_raw, hp] at h
    exact h.symm
  | true =>
    rcases hsend : ListenerChan.send_early_pkt map ft buf with ⟨mapA, r⟩
    cases r with
    | Ok => simp [UdpListener.accept_raw, hp, hsend] at h
    | Full b => simp [UdpListener.accept_raw, hp, hsend] at h
    | NotExist b =>
      have hfresh := EarlyPktMap.get_insert_self mapA ft
        { queue := [], receiverLive := true }
      have hsend2 := send_early_pkt_of_live_empty
        (EarlyPktMap.insert mapA ft { queue := [], receiverLive := true })
        ft b _ hfresh rfl rfl
      simp [UdpListener.accept_raw, hp, hsend,
        ListenerChan.create_early_pkt_chan, UdpConn.new, hsend2] at h

theorem accept_raw_cae_inv (f : IpFilter) (map : EarlyPktMap) (ft : FourTuple)
    (buf : List Nat) (map1 : EarlyPktMap)
    (h : UdpListener.accept_raw f map ft buf
      = some (map1, AcceptRes.ConnAlreadyExists)) :
    map1 = map
    ∨ ∃ mb0, EarlyPktMap.get map ft = some mb0
      ∧ map1 = EarlyPktMap.insert map ft
          { queue := mb0.queue ++ [buf], receiverLive := true } := by
  cases hp : IpFilter.pass f ft.local_addr.ip with
  | false => simp [UdpListener.accept_raw, hp] at h
  | true =>
    cases hg : EarlyPktMap.get map ft with
    | none =>
      have hsend := send_early_pkt_of_get_none map ft buf hg
      have hfresh := EarlyPktMap.get_insert_self map ft
        { queue := [], receiverLive := true }
      have hsend2 := send_early_pkt_of_live_empty
        (EarlyPktMap.insert map ft { queue := [], receiverLive := true })
        ft buf _ hfresh rfl rfl
      simp [UdpListener.accept_raw, hp, hsend,
        ListenerChan.create_early_pkt_chan, UdpConn.new, hsend2] at h
    | some mb0 =>
      rcases ht : Mailbox.trySend mb0 buf with ⟨mb', t⟩
      cases t with
      | ok =>
        obtain ⟨hmb', hlive, hq⟩ := trySend_ok_inv mb0 mb' buf ht
        have hsend : ListenerChan.send_early_pkt map ft buf
            = (EarlyPktMap.insert map ft mb', SendRes.Ok) := by
          simp [ListenerChan.send_early_pkt, hg, ht]
        simp [UdpListener.accept_raw, hp, hsend] at h
        right
        refine ⟨mb0, rfl, ?_⟩
        rw [← hmb']
        exact h.symm
      | full b =>
        have hsend : ListenerChan.send_early_pkt map ft buf
            = (map, SendRes.Full b) := by
          simp [ListenerChan.send_early_pkt, hg, ht]
        simp [UdpListener.accept_raw, hp, hsend] at h
        exact Or.inl h.symm
      | disconnected b =>
        have hsend : ListenerChan.send_early_pkt map ft buf
            = (EarlyPktMap.remove map ft, SendRes.NotExist b) := by
          simp [ListenerChan.send_early_pkt, hg, ht]
        have hfresh := EarlyPktMap.get_insert_self (EarlyPktMap.remove map ft) ft
          { queue := [], receiverLive := true }
        have hsend2 := send_early_pkt_of_live_empty
          (EarlyPktMap.insert (EarlyPktMap.remove map ft) ft
            { queue := [], receiverLive := true })
          ft b _ hfresh rfl rfl
        simp [UdpListener.accept_raw, hp, hsend,
          ListenerChan.create_early_pkt_chan, UdpConn.new, hsend2] at h

theorem accept_raw_payload_provenance (f : IpFilter) (map : EarlyPktMap)
    (ft : FourTuple) (buf : List Nat) (map1 : EarlyPktMap) (res : AcceptRes)
    (h : UdpListener.accept_raw f map ft buf = some (map1, res)) :
    ∀ mb, EarlyPktMap.get map1 ft = some mb → ∀ p ∈ mb.queue,
      (∃ mb0, EarlyPktMap.get map ft = some mb0 ∧ p ∈ mb0.queue)
      ∨ p = buf := by
  intro mb hmb p hp
  cases res with
  | Filtered =>
    have heq := accept_raw_filtered_inv f map ft buf map1 h
    subst heq
    exact Or.inl ⟨mb, hmb, hp⟩
  | ConnAlreadyExists =>
    rcases accept_raw_cae_inv f map ft buf map1 h with heq | ⟨mb0, hg, heq⟩
    · subst heq
      exact Or.inl ⟨mb, hmb, hp⟩
    · subst heq
      rw [EarlyPktMap.get_insert_self] at hmb
      injection hmb with hmb
      rw [← hmb] at hp
      simp at hp
      rcases hp with hp | hp
      · exact Or.inl ⟨mb0, hg, hp⟩
      · exact Or.inr hp
  | Ok conn =>
    obtain ⟨_, _, _, hget⟩ := accept_raw_ok_inv f map ft buf map1 conn h
    rw [hget] at hmb
    injection hmb with hmb
    rw [← hmb] at hp
    simp at hp
    exact Or.inr hp

/-- C9: for a datagram of length `len`, whatever `accept` or `accept_owned`
push into the early-packet mailbox is exactly the slice `rx_buf[..len]` of
the receive buffer: every payload found in the mailbox for the 4-tuple after
the call was either already there before or equals `rx_buf.take len`, whose
length is at most `len`, so the mailbox never holds trailing bytes beyond the
datagram. -/
theorem accept_mailbox_payload_slice (f : IpFilter) (map : EarlyPktMap)
    (ft : FourTuple) (len : Nat) (rx_buf : List Nat) :
    (∀ map1 res, UdpListener.accept f map ft len rx_buf
        = some ((map1, res), ft, len) →
      ∀ mb, EarlyPktMap.get map1 ft = some mb → ∀ p ∈ mb.queue,
        (∃ mb0, EarlyPktMap.get map ft = some mb0 ∧ p ∈ mb0.queue)
        ∨ p = rx_buf.take len)
    ∧ (∀ map1 res, UdpListener.accept_owned f map ft len rx_buf
        = some ((map1, res), ft, len) →
      ∀ mb, EarlyPktMap.get map1 ft = some mb → ∀ p ∈ mb.queue,
        (∃ mb0, EarlyPktMap.get map ft = some mb0 ∧ p ∈ mb0.queue)
        ∨ p = rx_buf.take len)
    ∧ (rx_buf.take len).length ≤ len := by
  refine ⟨?_, ?_, ?_⟩
  · intro map1 res h
    cases harw : UdpListener.accept_raw f map ft (rx_buf.take len) with
    | none => simp [UdpListener.accept, harw] at h
    | some p =>
      obtain ⟨mapB, resB⟩ := p
      simp [UdpListener.accept, harw] at h
      rw [h.1, h.2] at harw
      exact accept_raw_payload_provenance f map ft (rx_buf.take len) map1 res harw
  · intro map1 res h
    cases harw : UdpListener.accept_raw f map ft (rx_buf.take len) with
    | none => simp [UdpListener.accept_owned, harw] at h
    | some p =>
      obtain ⟨mapB, resB⟩ := p
      simp [UdpListener.accept_owned, harw] at h
      rw [h.1, h.2] at harw
      exact accept_raw_payload_provenance f map ft (rx_buf.take len) map1 res harw
  · simp [List.length_take]

/-- C9 witness: on the empty map, accepting the 3-byte buffer `[1,2,3]` with
datagram length 2 stores exactly `[1,2]` in the fresh mailbox. -/
theorem accept_mailbox_payload_slice_witness :
    UdpListener.accept IpFilter.AlwaysPass [] sampleTuple 2 [1, 2, 3]
      = some (([(sampleTuple, { queue := [[1, 2]], receiverLive := true })],
          AcceptRes.Ok
            { socket := { bound := sampleLocal, connected := sampleRemote },
              four_tuple := sampleTuple,
              early_pkt_recv := { early_pkt_key := sampleTuple } }),
          sampleTuple, 2)
    ∧ ((∃ mb0, EarlyPktMap.get ([] : EarlyPktMap) sampleTuple = some mb0
          ∧ [1, 2] ∈ mb0.queue)
        ∨ [1, 2] = [1, 2, 3].take 2) :=
  ⟨by decide,
   (accept_mailbox_payload_slice IpFilter.AlwaysPass [] sampleTuple 2 [1, 2, 3]).1
      [(sampleTuple, { queue := [[1, 2]], receiverLive := true })]
      (AcceptRes.Ok
        { socket := { bound := sampleLocal, connected := sampleRemote },
          four_tuple := sampleTuple,
          early_pkt_recv := { early_pkt_key := sampleTuple } })
      (by decide)
      { queue := [[1, 2]], receiverLive := true } (by decide)
      [1, 2] (by decide)⟩

theorem scanLocalIp_append_last_v4 (pre : List ControlMessageOwned)
    (a : List Nat) :
    scanLocalIp (pre ++ [ControlMessageOwned.Ipv4PacketInfo a])
      = some (IpAddr.V4 (in_addr_to_std a)) := by
  simp [scanLocalIp, List.foldl_append, scanStep]

theorem scanLocalIp_append_last_v6 (pre : List ControlMessageOwned)
    (b : List Nat) :
    scanLocalIp (pre ++ [ControlMessageOwned.Ipv6PacketInfo b])
      = some (IpAddr.V6 { octets := b }) := by
  simp [scanLocalIp, List.foldl_append, scanStep]

theorem recv_from_to_ok_inv (msg : RecvMsg) (port : Nat) (ft : FourTuple)
    (len : Nat) (h : recv_from_to (.ok msg) port = .ok (ft, len)) :
    ∃ ip ss remote, scanLocalIp msg.cmsgs = some ip
      ∧ msg.address = some ss
      ∧ storage_to_std ss = some remote
      ∧ ft = { local_addr := { ip := ip, port := port }, remote_addr := remote }
      ∧ len = msg.bytes := by
  cases hscan : scanLocalIp msg.cmsgs with
  | none => simp [recv_from_to, hscan] at h
  | some ip =>
    cases haddr : msg.address with
    | none => simp [recv_from_to, hscan, haddr] at h
    | some ss =>
      cases hstor : storage_to_std ss with
      | none => simp [recv_from_to, hscan, haddr, hstor] at h
      | some remote =>
        simp [recv_from_to, hscan, haddr, hstor] at h
        exact ⟨ip, ss, remote, rfl, rfl, hstor, h.1.symm, h.2.symm⟩

/-- C5: on every successful `recv_from_to`, `local_addr` is the pair of the
local IP recovered from the PKTINFO ancillary data and the caller-supplied
`listen_port`; an IPv4 address is converted from network (big-endian) byte
order to the host-order value, an IPv6 address is taken as its 16-byte array
with no swap, and the wire-order remote port (and IPv4 remote address) of the
peer sockaddr are converted to host order as well. -/
theorem recv_from_to_local_addr (msg : RecvMsg) (listen_port : Nat)
    (ft : FourTuple) (len : Nat)
    (h : recv_from_to (.ok msg) listen_port = .ok (ft, len)) :
    ft.local_addr.port = listen_port
    ∧ (∀ pre a, msg.cmsgs = pre ++ [ControlMessageOwned.Ipv4PacketInfo a] →
        ft.local_addr
          = { ip := .V4 { bits := fromBeBytes a }, port := listen_port })
    ∧ (∀ pre b, msg.cmsgs = pre ++ [ControlMessageOwned.Ipv6PacketInfo b] →
        ft.local_addr = { ip := .V6 { octets := b }, port := listen_port })
    ∧ (∀ ra rp, msg.address = some (SockaddrStorage.sin ra rp) →
        ft.remote_addr
          = { ip := .V4 { bits := fromBeBytes ra }, port := fromBeBytes rp })
    ∧ (∀ ra rp, msg.address = some (SockaddrStorage.sin6 ra rp) →
        ft.remote_addr
          = { ip := .V6 { octets := ra }, port := fromBeBytes rp }) := by
  obtain ⟨ip, ss, remote, hscan, haddr, hstor, hft, hlen⟩ :=
    recv_from_to_ok_inv msg listen_port ft len h
  subst hft
  refine ⟨rfl, ?_, ?_, ?_, ?_⟩
  · intro pre a hcm
    rw [hcm, scanLocalIp_append_last_v4] at hscan
    injection hscan with hscan
    simp [← hscan, in_addr_to_std]
  · intro pre b hcm
    rw [hcm, scanLocalIp_append_last_v6] at hscan
    injection hscan with hscan
    simp [← hscan]
  · intro ra rp hra
    rw [haddr] at hra
    injection hra with hra
    rw [hra] at hstor
    simp only [storage_to_std] at hstor
    injection hstor with hstor
    exact hstor.symm
  · intro ra rp hra
    rw [haddr] at hra
    injection hra with hra
    rw [hra] at hstor
    simp only [storage_to_std] at hstor
    injection hstor with hstor
    exact hstor.symm

/-- C5 witness: a v4 pktinfo carrying the wire bytes of 127.0.0.1 and a
`sockaddr_in` peer 10.0.0.1:54321 (wire order) are decoded to host-order
values, with the caller's listen port 12345 as the local port. -/
theorem recv_from_to_local_addr_witness :
    recv_from_to
      (.ok { cmsgs := [ControlMessageOwned.Ipv4PacketInfo [127, 0, 0, 1]],
             address := some (SockaddrStorage.sin [10, 0, 0, 1] [212, 49]),
             payload := [104, 105] }) 12345
      = .ok ({ local_addr := { ip := .V4 { bits := 2130706433 }, port := 12345 },
               remote_addr := { ip := .V4 { bits := 167772161 }, port := 54321 } },
             2)
    ∧ ({ local_addr := { ip := .V4 { bits := 2130706433 }, port := 12345 },
         remote_addr := { ip := .V4 { bits := 167772161 }, port := 54321 } }
         : FourTuple).local_addr
        = { ip := .V4 { bits := fromBeBytes [127, 0, 0, 1] }, port := 12345 } :=
  ⟨rfl,
   (recv_from_to_local_addr
      { cmsgs := [ControlMessageOwned.Ipv4PacketInfo [127, 0, 0, 1]],
        address := some (SockaddrStorage.sin [10, 0, 0, 1] [212, 49]),
        payload := [104, 105] } 12345 _ 2 rfl).2.1
      [] [127, 0, 0, 1] rfl⟩

theorem scanFold_no_pktinfo (cs : List ControlMessageOwned) :
    ∀ acc, (∀ c ∈ cs, c.isPktinfo = false) →
      List.foldl scanStep acc cs = acc := by
  induction cs with
  | nil => intro acc h; rfl
  | cons hd tl ih =>
    intro acc h
    have hhd := h hd (by simp)
    cases hd with
    | Ipv4PacketInfo a => simp [ControlMessageOwned.isPktinfo] at hhd
    | Ipv6PacketInfo b => simp [ControlMessageOwned.isPktinfo] at hhd
    | other =>
      simp only [List.foldl_cons, scanStep]
      exact ih acc (fun c hc => h c (by simp [hc]))

theorem scanFold_isSome_of_acc (cs : List ControlMessageOwned) :
    ∀ acc : Option IpAddr, acc.isSome = true →
      (List.foldl scanStep acc cs).isSome = true := by
  induction cs with
  | nil => intro acc h; exact h
  | cons hd tl ih =>
    intro acc h
    cases hd with
    | Ipv4PacketInfo a => exact ih _ rfl
    | Ipv6PacketInfo b => exact ih _ rfl
    | other => exact ih acc h

theorem scanFold_isSome_of_mem (cs : List ControlMessageOwned) :
    ∀ (acc : Option IpAddr) (c : ControlMessageOwned), c ∈ cs →
      c.isPktinfo = true → (List.foldl scanStep acc cs).isSome = true := by
  induction cs with
  | nil => intro acc c hc; simp at hc
  | cons hd tl ih =>
    intro acc c hc hpk
    rcases List.mem_cons.mp hc with hc | hc
    · subst hc
      cases c with
      | Ipv4PacketInfo a => exact scanFold_isSome_of_acc tl _ rfl
      | Ipv6PacketInfo b => exact scanFold_isSome_of_acc tl _ rfl
      | other => simp [ControlMessageOwned.isPktinfo] at hpk
    · exact ih _ c hc hpk

theorem scanFold_mem_of_isSome (cs : List ControlMessageOwned) :
    ∀ acc : Option IpAddr, (List.foldl scanStep acc cs).isSome = true →
      acc.isSome = true ∨ ∃ c ∈ cs, c.isPktinfo = true := by
  induction cs with
  | nil => intro acc h; exact Or.inl h
  | cons hd tl ih =>
    intro acc h
    cases hd with
    | Ipv4PacketInfo a =>
      exact Or.inr ⟨.Ipv4PacketInfo a, by simp, rfl⟩
    | Ipv6PacketInfo b =>
      exact Or.inr ⟨.Ipv6PacketInfo b, by simp, rfl⟩
    | other =>
      rcases ih acc h with h1 | ⟨c, hc, hpk⟩
      · exact Or.inl h1
      · exact Or.inr ⟨c, by simp [hc], hpk⟩

/-- C6: `recv_from_to` propagates any `recvmsg` error unchanged; when the
syscall succeeds but no pktinfo control message is present it fails with the
`Other`-kind "no local address" error; when a pktinfo is present but the
returned `msg_name` is neither `AF_INET` nor `AF_INET6` it fails with the
`Other`-kind "invalid remote address" error; and any success implies the
syscall succeeded, some pktinfo message was present and the returned
`msg_name` was an `AF_INET` or `AF_INET6` sockaddr. -/
theorem recv_from_to_errors :
    (∀ (e : IoError) (listen_port : Nat),
      recv_from_to (.error e) listen_port = .error e)
    ∧ (∀ (msg : RecvMsg) (listen_port : Nat),
        (∀ c ∈ msg.cmsgs, c.isPktinfo = false) →
        recv_from_to (.ok msg) listen_port
          = .error (.other "recvmsg did not return a local address"))
    ∧ (∀ (msg : RecvMsg) (listen_port : Nat),
        (∃ c ∈ msg.cmsgs, c.isPktinfo = true) →
        msg.address = some SockaddrStorage.otherFamily →
        recv_from_to (.ok msg) listen_port
          = .error (.other "recvmsg returned an invalid remote address"))
    ∧ (∀ (r : Except IoError RecvMsg) (listen_port : Nat) (ft : FourTuple)
        (len : Nat), recv_from_to r listen_port = .ok (ft, len) →
        ∃ msg, r = .ok msg
          ∧ (∃ c ∈ msg.cmsgs, c.isPktinfo = true)
          ∧ (∃ ss, msg.address = some ss ∧ ss ≠ SockaddrStorage.otherFamily)) := by
  refine ⟨fun e listen_port => rfl, ?_, ?_, ?_⟩
  · intro msg listen_port h
    have hscan : scanLocalIp msg.cmsgs = none := scanFold_no_pktinfo msg.cmsgs none h
    simp [recv_from_to, hscan]
  · intro msg listen_port ⟨c, hc, hpk⟩ haddr
    have hsome := scanFold_isSome_of_mem msg.cmsgs none c hc hpk
    cases hscan : scanLocalIp msg.cmsgs with
    | none => rw [scanLocalIp] at hscan; rw [hscan] at hsome; simp at hsome
    | some ip => simp [recv_from_to, hscan, haddr, storage_to_std]
  · intro r listen_port ft len h
    cases r with
    | error e => simp [recv_from_to] at h
    | ok msg =>
      obtain ⟨ip, ss, remote, hscan, haddr, hstor, _, _⟩ :=
        recv_from_to_ok_inv msg listen_port ft len h
      refine ⟨msg, rfl, ?_, ss, haddr, ?_⟩
      · have hsome : (List.foldl scanStep none msg.cmsgs).isSome = true := by
          rw [← scanLocalIp, hscan]; rfl
        rcases scanFold_mem_of_isSome msg.cmsgs none hsome with h1 | h1
        · simp at h1
        · exact h1
      · intro hss
        rw [hss] at hstor
        simp [storage_to_std] at hstor

/-- C6 witness: a message with no pktinfo gives the "no local address" error;
a message whose peer sockaddr is of another family gives the "invalid remote
address" error; and an OS error from `recvmsg` is handed through unchanged. -/
theorem recv_from_to_errors_witness :
    recv_from_to (.error (IoError.os 11)) 12345 = .error (IoError.os 11)
    ∧ recv_from_to
        (.ok { cmsgs := [ControlMessageOwned.other],
               address := some (SockaddrStorage.sin [1, 2, 3, 4] [0, 80]),
               payload := [] }) 12345
        = .error (.other "recvmsg did not return a local address")
    ∧ recv_from_to
        (.ok { cmsgs := [ControlMessageOwned.Ipv6PacketInfo (List.replicate 16 0)],
               address := some SockaddrStorage.otherFamily,
               payload := [] }) 12345
        = .error (.other "recvmsg returned an invalid remote address") :=
  ⟨recv_from_to_errors.1 (IoError.os 11) 12345,
   recv_from_to_errors.2.1 _ 12345 (by
      intro c hc
      simp at hc
      rw [hc]
      rfl),
   recv_from_to_errors.2.2.1 _ 12345
      ⟨ControlMessageOwned.Ipv6PacketInfo (List.replicate 16 0), by simp, rfl⟩ rfl⟩

/-- C10: when a connection reads a datagram from its own socket, the call
returns `(Ok, len)` exactly when the recovered 4-tuple equals the stored one,
and otherwise `(ListenerPkt(foreign_tuple), len)` carrying the foreign
4-tuple; in both cases `len` is the datagram length and the payload of length
`len` has been written into the front of the caller's buffer by `recvmsg`. -/
theorem udp_conn_recv_four_tuple_match (conn : UdpConn) (msg : RecvMsg)
    (ft : FourTuple) (len : Nat)
    (h : recv_from_to (.ok msg) conn.four_tuple.local_addr.port
      = .ok (ft, len)) :
    (UdpConn.recv conn (.ok msg) = .ok (RecvRes.Ok, len) ↔ ft = conn.four_tuple)
    ∧ (ft ≠ conn.four_tuple →
        UdpConn.recv conn (.ok msg) = .ok (RecvRes.ListenerPkt ft, len))
    ∧ len = msg.bytes
    ∧ msg.payload.length = len
    ∧ (∀ rx_buf, (recvmsgWrite rx_buf msg).take len = msg.payload) := by
  obtain ⟨_, _, _, _, _, _, _, hlen⟩ :=
    recv_from_to_ok_inv msg conn.four_tuple.local_addr.port ft len h
  have hplen : msg.payload.length = len := hlen.symm
  refine ⟨?_, ?_, hlen, hplen, ?_⟩
  · constructor
    · intro hrecv
      by_cases hft : ft = conn.four_tuple
      · exact hft
      · simp [UdpConn.recv, h, hft] at hrecv
    · intro hft
      simp [UdpConn.recv, h, hft]
  · intro hft
    simp [UdpConn.recv, h, hft]
  · intro rx_buf
    rw [recvmsgWrite, ← hplen]
    exact List.take_left msg.payload (rx_buf.drop msg.payload.length)

/-- C10 witness: a connection for the sample 4-tuple receiving a datagram
recovered as the same 4-tuple gets `(Ok, len)`; the payload is the front of
the buffer. -/
theorem udp_conn_recv_four_tuple_match_witness :
    recv_from_to
        (.ok { cmsgs := [ControlMessageOwned.Ipv4PacketInfo [127, 0, 0, 1]],
               address := some (SockaddrStorage.sin [127, 0, 0, 1] [212, 49]),
               payload := [104, 105] }) 12345
      = .ok (sampleTuple, 2)
    ∧ UdpConn.recv
        { socket := { bound := sampleLocal, connected := sampleRemote },
          four_tuple := sampleTuple,
          early_pkt_recv := { early_pkt_key := sampleTuple } }
        (.ok { cmsgs := [ControlMessageOwned.Ipv4PacketInfo [127, 0, 0, 1]],
               address := some (SockaddrStorage.sin [127, 0, 0, 1] [212, 49]),
               payload := [104, 105] })
      = .ok (RecvRes.Ok, 2) :=
  ⟨rfl,
   (udp_conn_recv_four_tuple_match
      { socket := { bound := sampleLocal, connected := sampleRemote },
        four_tuple := sampleTuple,
        early_pkt_recv := { early_pkt_key := sampleTuple } }
      { cmsgs := [ControlMessageOwned.Ipv4PacketInfo [127, 0, 0, 1]],
        address := some (SockaddrStorage.sin [127, 0, 0, 1] [212, 49]),
        payload := [104, 105] }
      sampleTuple 2 rfl).1.mpr rfl⟩
